import Mathlib

/-!
Verification development for the Librarian 2.0 illusion-detection core of the
cloud-eye-mcp-bridge repository.

The Python sources `librarian2/detector.py`, `librarian2/engine.py`,
`librarian2/scanner.py` and `librarian2/api.py` are shallowly embedded below:
pure computation is translated to Lean functions; effects (SQLite reads, git
subprocess calls, the HTTP probes, wall clocks) become explicit inputs.
Strings are Lean `String`s; Python `datetime` arithmetic is modelled with an
integer clock (whole seconds); the float `response_ms` field, whose value no
verified property depends on, is abstracted to natural-number milliseconds.
-/

namespace CloudEye

/- ── Verdict and severity constants (detector.py lines 23-30) ─────────────── -/

def VERIFIED : String := "VERIFIED"
def ILLUSION : String := "ILLUSION"
def UNVERIFIABLE : String := "UNVERIFIABLE"
def STALE : String := "STALE"

def SEVERITY_HIGH : String := "HIGH"
def SEVERITY_MEDIUM : String := "MEDIUM"
def SEVERITY_LOW : String := "LOW"

/- ── Data model (detector.py `Claim`, scanner.py dataclasses) ─────────────── -/

/-- `Claim` dataclass of detector.py (lines 33-44). -/
structure Claim where
  entry_id : String
  entry_priority : String
  claim_type : String
  claim_text : String
  expected_value : String
  verdict : String
  actual_value : Option String := none
  severity : String := SEVERITY_LOW
  note : Option String := none
  deriving DecidableEq, Repr

/-- `GitState` dataclass of scanner.py (lines 30-41).  `repo_path` is kept as a
plain string. -/
structure GitState where
  repo_name : String
  repo_path : String
  available : Bool
  head_commit : Option String := none
  branch : Option String := none
  untracked : List String := []
  modified : List String := []
  staged : List String := []
  ahead_behind : Option String := none
  error : Option String := none
  deriving DecidableEq, Repr

/-- `ServiceState` dataclass of scanner.py (lines 43-52).  `response_ms` is a
float in the source; it is abstracted to whole milliseconds, and
`health_detail` (an arbitrary JSON object) to an optional opaque string, since
no verified property reads either. -/
structure ServiceState where
  name : String
  url : String
  reachable : Bool
  status_code : Option Nat := none
  response_ms : Option Nat := none
  version : Option String := none
  health_detail : Option String := none
  error : Option String := none
  deriving DecidableEq, Repr

/-- `LibrarianState` dataclass of scanner.py (lines 54-63); the coverage
percentage float is abstracted to a natural number of tenths of a percent. -/
structure LibrarianState where
  db_path : String
  readable : Bool
  total_guidance : Nat := 0
  current_focus_count : Nat := 0
  essence_count : Nat := 0
  recent_handoff : Option String := none
  embedding_coverage_pct : Nat := 0
  error : Option String := none
  deriving DecidableEq, Repr

/-- `SapphireState` dataclass of scanner.py (lines 65-73). -/
structure SapphireState where
  db_path : String
  readable : Bool
  routing_observations : Nat := 0
  detected_patterns : Nat := 0
  unapplied_patterns : Nat := 0
  recent_observation : Option String := none
  error : Option String := none
  deriving DecidableEq, Repr

/-- `RealitySnapshot` dataclass of scanner.py (lines 75-83).  The Python
dicts `git`, `services` and `filesystem` are insertion-ordered, so they are
embedded as association lists; iteration order in `verify_claims` follows the
list order exactly as Python iterates `dict.items()`. -/
structure RealitySnapshot where
  scanned_at : String
  scan_duration_ms : Nat
  git : List (String × GitState)
  services : List (String × ServiceState)
  librarian : LibrarianState
  sapphire : SapphireState
  filesystem : List (String × Bool)
  deriving DecidableEq, Repr

/- ── String helpers shared by the embedded regex patterns ─────────────────── -/

/-- Case-insensitive character equality (ASCII), used for `re.IGNORECASE`. -/
def ciEq (a b : Char) : Bool := a.toLower == b.toLower

/-- Does `s` start with the literal `pat`, compared case-insensitively? -/
def litCIAux : List Char → List Char → Bool
  | [], _ => true
  | _ :: _, [] => false
  | p :: ps, c :: cs => ciEq p c && litCIAux ps cs

/-- Case-insensitive literal match: number of characters consumed. -/
def litCI (pat : String) (s : List Char) : Option Nat :=
  if litCIAux pat.toList s then some pat.length else none

/-- Ordered alternation of literals.  All alternations appearing in the
detector's patterns are pairwise prefix-disjoint, so first-match semantics
coincides with Python's leftmost-alternative backtracking semantics. -/
def altsCI : List String → List Char → Option Nat
  | [], _ => none
  | p :: ps, s =>
    match litCI p s with
    | some n => some n
    | none => altsCI ps s

/-- Does `s` start exactly (case-sensitively) with `pre`? -/
def listStartsWith : List Char → List Char → Bool
  | _, [] => true
  | [], _ :: _ => false
  | c :: cs, p :: ps => c == p && listStartsWith cs ps

/-- Python's `needle in hay` substring test on character lists. -/
def containsSub : List Char → List Char → Bool
  | [], needle => needle.isEmpty
  | h :: t, needle => listStartsWith (h :: t) needle || containsSub t needle

/-- Python's `needle in hay` on strings. -/
def containsStr (hay needle : String) : Bool :=
  containsSub hay.toList needle.toList

/-- Python's ASCII `str.lower()` (kept as a character map so that the kernel
can evaluate it). -/
def strLower (s : String) : String := String.mk (s.toList.map Char.toLower)

/-- Case-insensitive substring test, modelling `re.search` of a literal with
`re.IGNORECASE`. -/
def containsCI (hay needle : String) : Bool :=
  containsSub (hay.toList.map Char.toLower) (needle.toList.map Char.toLower)

/-- Python's `a.lower().startswith(b.lower())`. -/
def lowerStartsWith (a b : String) : Bool :=
  listStartsWith (a.toList.map Char.toLower) (b.toList.map Char.toLower)

/-- Python regex `\s` (ASCII whitespace). -/
def isSpaceCh (c : Char) : Bool :=
  c == ' ' || c == '\t' || c == '\n' || c == '\r' ||
  c == Char.ofNat 11 || c == Char.ofNat 12

/-- Python regex `\w` word character, restricted to ASCII as used here. -/
def isWordChar (c : Char) : Bool := c.isAlphanum || c == '_'

/-- Regex class `[0-9a-f]` under `re.IGNORECASE`. -/
def isHexCI (c : Char) : Bool :=
  c.isDigit || ('a' ≤ c.toLower && c.toLower ≤ 'f')

/-- A `\b` word boundary placed directly after a word character: it holds
iff the rest of the input starts with a non-word character (or is empty). -/
def wbAfterWord : List Char → Bool
  | [] => true
  | c :: _ => !isWordChar c

/-- Length of the maximal prefix of `s` whose characters satisfy `p`
(greedy single-class repetition). -/
def countWhile (p : Char → Bool) : List Char → Nat
  | [] => 0
  | c :: t => if p c then countWhile p t + 1 else 0

/-- Generic `finditer` driver: scan left to right, at each position try
`matchAt`; on a match of `n > 0` characters emit `(group0, aux)` and resume
at the match end, otherwise advance one character.  `fuel` is instantiated
with the input length (every match consumes at least one character, so this
never exhausts early). -/
def finditerGen (matchAt : List Char → Option (Nat × String)) :
    Nat → List Char → List (String × String)
  | 0, _ => []
  | _, [] => []
  | fuel + 1, c :: rest =>
    match matchAt (c :: rest) with
    | some (n, aux) =>
      if n == 0 then finditerGen matchAt fuel rest
      else (String.mk ((c :: rest).take n), aux) :: finditerGen matchAt fuel ((c :: rest).drop n)
    | none => finditerGen matchAt fuel rest

/- ── RE_COMMIT_CONTEXT (detector.py line 52) ──────────────────────────────────
`(?:master|HEAD|branch|commit|at)\s+([0-9a-f]{7,10})\b` with IGNORECASE. -/

def commitKeywords : List String := ["master", "HEAD", "branch", "commit", "at"]

/-- Greedy `[0-9a-f]{7,10}\b`: try `n` hex characters from `n = hi` down to 7,
accepting the first count whose following position is a word boundary. -/
def tryHexRep (s : List Char) : Nat → Option Nat
  | 0 => none
  | n + 1 =>
    if n + 1 < 7 then none
    else if decide (n + 1 ≤ s.length) && (s.take (n + 1)).all isHexCI &&
            wbAfterWord (s.drop (n + 1)) then some (n + 1)
    else tryHexRep s n

/-- Match `RE_COMMIT_CONTEXT` anchored at the start of `s`; returns the total
match length and the capture group (the hex token). -/
def matchCommitAt (s : List Char) : Option (Nat × String) :=
  match altsCI commitKeywords s with
  | none => none
  | some k =>
    let s1 := s.drop k
    let w := countWhile isSpaceCh s1
    if w == 0 then none
    else
      let s2 := s1.drop w
      match tryHexRep s2 10 with
      | some n => some (k + w + n, String.mk (s2.take n))
      | none => none

/- ── RE_SERVICE_UP (detector.py line 54) ──────────────────────────────────────
`(lxr-5|coach|cloudeye-lxr|cloudeye-ui)[^\n]*:\s*(UP|LIVE|healthy|running|operational)`
with IGNORECASE. -/

def serviceNames : List String := ["lxr-5", "coach", "cloudeye-lxr", "cloudeye-ui"]
def upStatusWords : List String := ["UP", "LIVE", "healthy", "running", "operational"]

/-- Greedy `[^\n]*` followed by `:\s*(status)`: try the gap length `k` from the
maximal non-newline run downwards (Python's greedy backtracking); after the
colon, `\s*` is maximal-munch (no status word begins with whitespace). -/
def serviceTailHit (s1 : List Char) (k : Nat) : Option Nat :=
  match s1.drop k with
  | ':' :: s3 =>
    let w := countWhile isSpaceCh s3
    match altsCI upStatusWords (s3.drop w) with
    | some m => some (k + 1 + w + m)
    | none => none
  | _ => none

def tryServiceTail (s1 : List Char) : Nat → Option Nat
  | 0 => serviceTailHit s1 0
  | k + 1 =>
    match serviceTailHit s1 (k + 1) with
    | some n => some n
    | none => tryServiceTail s1 k

/-- Match `RE_SERVICE_UP` anchored at the start of `s`; returns the total match
length and capture group 1 (the service-name token as it appears). -/
def matchServiceUpAt (s : List Char) : Option (Nat × String) :=
  match altsCI serviceNames s with
  | none => none
  | some k =>
    let s1 := s.drop k
    match tryServiceTail s1 (countWhile (fun c => c != '\n') s1) with
    | some m => some (k + m, String.mk (s.take k))
    | none => none

/- ── RE_BUG_ACTIVE (detector.py line 57) ──────────────────────────────────────
`(?:BUG\s*\d+|no such table|no such column|attribute.*get|sqlite3\.Row).*`
with IGNORECASE. -/

/-- Last case-insensitive occurrence of `pat` inside `line` (for the greedy
`.*` that precedes `get` in `attribute.*get`). -/
def findLastCI (line : List Char) (pat : String) : Option Nat :=
  let rec go : List Char → Nat → Option Nat → Option Nat
    | [], _, best => best
    | c :: t, i, best =>
      go t (i + 1) (if litCIAux pat.toList (c :: t) then some i else best)
  go line 0 none

/-- Match one `RE_BUG_ACTIVE` alternative anchored at the start of `s`
(without the trailing `.*`). -/
def matchBugAlt (s : List Char) : Option Nat :=
  match litCI "BUG" s with
  | some _ =>
    -- BUG\s*\d+ : greedy whitespace then at least one digit
    let s1 := s.drop 3
    let w := countWhile isSpaceCh s1
    let d := countWhile Char.isDigit (s1.drop w)
    if d == 0 then none else some (3 + w + d)
  | none =>
    match litCI "no such table" s with
    | some n => some n
    | none =>
      match litCI "no such column" s with
      | some n => some n
      | none =>
        match litCI "attribute" s with
        | some _ =>
          -- attribute.*get : `.` excludes newline; greedy, so the LAST "get"
          -- on the same line wins
          let s1 := s.drop 9
          let line := s1.take (countWhile (fun c => c != '\n') s1)
          match findLastCI line "get" with
          | some p => some (9 + p + 3)
          | none => none
        | none =>
          match litCI "sqlite3.Row" s with
          | some n => some n
          | none => none

/-- Match `RE_BUG_ACTIVE` anchored at the start of `s`: one alternative, then
the trailing greedy `.*` extends the match to the end of the line.  The
pattern has no capture group; the auxiliary string is unused. -/
def matchBugAt (s : List Char) : Option (Nat × String) :=
  match matchBugAlt s with
  | some n => some (n + countWhile (fun c => c != '\n') (s.drop n), "")
  | none => none

/-- The `re.search(r'BUG INVENTORY|KNOWN RUNTIME|BEFORE STATE|runtime bugs',
content, re.IGNORECASE)` guard of detector.py line 104: an alternation of
literals searched anywhere in the text. -/
def bugMarkerPresent (content : String) : Bool :=
  containsCI content "BUG INVENTORY" || containsCI content "KNOWN RUNTIME" ||
  containsCI content "BEFORE STATE" || containsCI content "runtime bugs"

/- ── RE_FILE_CLAIM (detector.py line 61) ──────────────────────────────────────
`(?:committed|deployed|created|exists|saved).*?([A-Za-z0-9_/\\-]+\.(?:py|md|js|ts|jsx|sql|toml|json))\b`
with IGNORECASE (the path-character class is quoted here with the dash moved
to the end; it denotes the same set of characters as the source). -/

def fileVerbs : List String := ["committed", "deployed", "created", "exists", "saved"]
def fileExts : List String := ["py", "md", "js", "ts", "jsx", "sql", "toml", "json"]

/-- The path-token character class `[A-Za-z0-9_/\\-]` (alphanumerics,
underscore, dash, forward and back slash). -/
def isPathChar (c : Char) : Bool :=
  c.isAlphanum || c == '_' || c == '-' || c == '/' || c == '\\'

/-- `\.(?:py|…|json)\b`: alternatives tried in order, each must be followed by
a word boundary (so `js` loses to `jsx`/`json` exactly as in Python). -/
def extMatch : List String → List Char → Option Nat
  | [], _ => none
  | e :: es, s =>
    if litCIAux e.toList s && wbAfterWord (s.drop e.length) then some e.length
    else extMatch es s

/-- The capture group `[A-Za-z0-9_/\\-]+\.(?:…)\b` anchored at `s2`: a
maximal path-character run (the class excludes `.`, so greedy munch is
complete), a literal dot, then an extension.  Returns (consumed, group text). -/
def fileTailAt (s2 : List Char) : Option (Nat × String) :=
  let run := countWhile isPathChar s2
  if run == 0 then none
  else
    match s2.drop run with
    | '.' :: s4 =>
      match extMatch fileExts s4 with
      | some e => some (run + 1 + e, String.mk (s2.take (run + 1 + e)))
      | none => none
    | _ => none

/-- Lazy `.*?` before the capture group: try gap 0, then extend one
(non-newline) character at a time.  Returns (gap, consumed, group text). -/
def fileGapScan : List Char → Nat → Option (Nat × Nat × String)
  | s2, g =>
    match fileTailAt s2 with
    | some (m, g1) => some (g, m, g1)
    | none =>
      match s2 with
      | [] => none
      | c :: t => if c == '\n' then none else fileGapScan t (g + 1)

/-- Match `RE_FILE_CLAIM` anchored at the start of `s`; returns the total
match length and capture group 1 (the path token with extension). -/
def matchFileAt (s : List Char) : Option (Nat × String) :=
  match altsCI fileVerbs s with
  | none => none
  | some k =>
    match fileGapScan (s.drop k) 0 with
    | some (g, m, g1) => some (k + g + m, g1)
    | none => none

/- ── Claim extraction (detector.py lines 66-129) ──────────────────────────── -/

/-- `_service_name_normalize` (detector.py lines 66-72). -/
def serviceNameNormalize (raw : String) : Option String :=
  let r := strLower raw
  if containsStr r "lxr-5" || containsStr r "lxr5" then some "lxr-5"
  else if containsStr r "coach" then some "coach"
  else if containsStr r "cloudeye-lxr" then some "lxr"
  else if containsStr r "cloudeye-ui" || containsStr r "ui" then some "ui"
  else none

/-- `extract_claims` (detector.py lines 75-129): the four extraction rules
appended in source order (git commits, service health, active bugs behind the
marker guard, file existence).  Note that only `RE_SERVICE_UP` is iterated —
the source never applies `RE_SERVICE_DOWN`. -/
def extract_claims (entry_id priority content : String) : List Claim :=
  let cs := content.toList
  let gitClaims : List Claim :=
    (finditerGen matchCommitAt cs.length cs).map fun m =>
      { entry_id := entry_id, entry_priority := priority,
        claim_type := "git_commit", claim_text := m.1,
        expected_value := strLower m.2, verdict := UNVERIFIABLE }
  let svcClaims : List Claim :=
    (finditerGen matchServiceUpAt cs.length cs).filterMap fun m =>
      (serviceNameNormalize m.2).map fun sn =>
        { entry_id := entry_id, entry_priority := priority,
          claim_type := "service_health", claim_text := m.1,
          expected_value := sn ++ ":UP", verdict := UNVERIFIABLE }
  let bugClaims : List Claim :=
    if bugMarkerPresent content then
      (finditerGen matchBugAt cs.length cs).map fun m =>
        { entry_id := entry_id, entry_priority := priority,
          claim_type := "bug_active", claim_text := m.1.take 120,
          expected_value := "bug:present", verdict := UNVERIFIABLE,
          severity := SEVERITY_HIGH }
    else []
  let fileClaims : List Claim :=
    (finditerGen matchFileAt cs.length cs).filterMap fun m =>
      if m.2.length > 4 then
        some { entry_id := entry_id, entry_priority := priority,
               claim_type := "file_exists", claim_text := m.1.take 120,
               expected_value := m.2, verdict := UNVERIFIABLE }
      else none
  gitClaims ++ svcClaims ++ bugClaims ++ fileClaims

/- ── Claim verification (detector.py lines 134-207) ───────────────────────── -/

/-- Python's `str(optional_int)` as used inside an f-string. -/
def pyShowOptNat : Option Nat → String
  | none => "None"
  | some n => toString n

/-- Python's f-string rendering of an `Optional[str]`. -/
def pyShowOptStr : Option String → String
  | none => "None"
  | some s => s

/-- Python's `str` of a `dict[str, str]`, e.g. `{'r': 'abc'}` (keys and values
contain no quote characters in this domain). -/
def pyDictRepr (l : List (String × String)) : String :=
  "\x7b" ++ String.intercalate ", " (l.map fun p => "'" ++ p.1 ++ "': '" ++ p.2 ++ "'") ++ "\x7d"

/-- `expected_value.split(":", 1)`: split at the first colon.  The source
unpacks into exactly two names, which would raise `ValueError` when no colon is
present; extractor-produced service-health values always contain one, and the
colon-free fallback `(s, "")` below is never exercised by verified inputs. -/
def splitColonAux : List Char → Option (List Char × List Char)
  | [] => none
  | c :: t =>
    if c == ':' then some ([], t)
    else (splitColonAux t).map fun p => (c :: p.1, p.2)

def splitFirstColon (s : String) : String × String :=
  match splitColonAux s.toList with
  | some (a, b) => (String.mk a, String.mk b)
  | none => (s, "")

/-- Association-list lookup, modelling Python `dict.get`. -/
def lookupStr {α : Type} (l : List (String × α)) (k : String) : Option α :=
  match l with
  | [] => none
  | (k', v) :: rest => if k' == k then some v else lookupStr rest k

/-- The git-commit matching loop of `verify_claims` (detector.py lines
142-149): the first repository whose head commit is truthy (set and nonempty)
and, lowered, starts with the lowered expected token. -/
def findGitMatch : List (String × GitState) → String → Option (String × String)
  | [], _ => none
  | (rn, g) :: rest, exp =>
    match g.head_commit with
    | some h =>
      if h != "" && lowerStartsWith h exp then some (rn, h)
      else findGitMatch rest exp
    | none => findGitMatch rest exp

/-- `{r: g.head_commit for r, g in reality.git.items() if g.head_commit}`
(detector.py line 152): repositories with a truthy head commit. -/
def collectHeads (git : List (String × GitState)) : List (String × String) :=
  git.filterMap fun p =>
    match p.2.head_commit with
    | some h => if h == "" then none else some (p.1, h)
    | none => none

/-- The file-existence matching loop of `verify_claims` (detector.py lines
190-200): first filesystem key that contains, or is contained in, the
normalized claimed path (case-insensitive, backslashes replaced). -/
def findFsMatch (fs : List (String × Bool)) (fname : String) : Option (String × Bool) :=
  let fn := (fname.toList.map fun c => if c == '\\' then '/' else c).map Char.toLower
  match fs with
  | [] => none
  | (key, ex) :: rest =>
    if containsSub (key.toList.map Char.toLower) fn ||
       containsSub fn (key.toList.map Char.toLower) then some (key, ex)
    else findFsMatch rest fname

/-- The per-claim body of `verify_claims` (detector.py lines 138-205); the
source mutates the claim in place, embedded here as a functional update. -/
def verifyClaim (reality : RealitySnapshot) (c : Claim) : Claim :=
  if c.claim_type == "git_commit" then
    match findGitMatch reality.git c.expected_value with
    | some (rn, h) =>
      { c with verdict := VERIFIED, actual_value := some h,
               note := some ("Matches " ++ rn ++ " HEAD") }
    | none =>
      { c with verdict := ILLUSION,
               actual_value := some (pyDictRepr (collectHeads reality.git)),
               severity := SEVERITY_MEDIUM,
               note := some "Commit not found as HEAD in any known repo" }
  else if c.claim_type == "service_health" then
    let p := splitFirstColon c.expected_value
    let sname := p.1
    let expectedStatus := p.2
    match lookupStr reality.services sname with
    | none =>
      { c with verdict := UNVERIFIABLE,
               note := some ("Service '" ++ sname ++ "' not in scan scope") }
    | some svc =>
      if svc.reachable && expectedStatus == "UP" then
        { c with verdict := VERIFIED,
                 actual_value := some ("HTTP " ++ pyShowOptNat svc.status_code ++
                   " (" ++ pyShowOptNat svc.response_ms ++ "ms)") }
      else if !svc.reachable && expectedStatus == "DOWN" then
        { c with verdict := VERIFIED,
                 actual_value := some ("Unreachable: " ++ pyShowOptStr svc.error) }
      else if !svc.reachable && expectedStatus == "UP" then
        { c with verdict := ILLUSION,
                 actual_value := some ("Service DOWN: " ++ pyShowOptStr svc.error),
                 severity := SEVERITY_HIGH,
                 note := some "Service claimed UP but is unreachable" }
      else
        { c with verdict := UNVERIFIABLE }
  else if c.claim_type == "bug_active" then
    { c with verdict := UNVERIFIABLE,
             note := some "Bug status requires code inspection or live test to verify" }
  else if c.claim_type == "file_exists" then
    match findFsMatch reality.filesystem c.expected_value with
    | some (key, ex) =>
      if ex then
        { c with verdict := VERIFIED, actual_value := some ("Found: " ++ key) }
      else
        { c with verdict := ILLUSION, actual_value := some ("NOT found: " ++ key),
                 severity := SEVERITY_MEDIUM,
                 note := some "File claimed to exist but not found on filesystem" }
    | none =>
      { c with verdict := UNVERIFIABLE,
               note := some "File not in known scan paths" }
  else c

/-- `verify_claims` (detector.py lines 134-207): each claim is verified and
appended in order. -/
def verify_claims (claims : List Claim) (reality : RealitySnapshot) : List Claim :=
  claims.map (verifyClaim reality)

/- ── Deduplication and sort (detector.py lines 254-269) ───────────────────── -/

/-- The deduplication key `(c.claim_type, c.expected_value[:40])`. -/
def dkey (c : Claim) : String × String := (c.claim_type, c.expected_value.take 40)

/-- The dedup loop of `detect_illusions` (lines 255-261) with the `seen` set
modelled as the list of keys already kept. -/
def dedupAux : List Claim → List (String × String) → List Claim
  | [], _ => []
  | c :: cs, seen =>
    if dkey c ∈ seen then dedupAux cs seen
    else c :: dedupAux cs (dkey c :: seen)

def dedupClaims (l : List Claim) : List Claim := dedupAux l []

/-- `verdict_order.get(c.verdict, 9)` (detector.py line 267). -/
def verdictOrder (v : String) : Nat :=
  if v == ILLUSION then 0
  else if v == UNVERIFIABLE then 1
  else if v == VERIFIED then 2
  else if v == STALE then 3
  else 9

/-- `sev_order.get(c.severity, 9)` (detector.py line 266). -/
def sevOrder (s : String) : Nat :=
  if s == SEVERITY_HIGH then 0
  else if s == SEVERITY_MEDIUM then 1
  else if s == SEVERITY_LOW then 2
  else 9

/-- The sort key tuple of detector.py line 269. -/
def sortKey (c : Claim) : Nat × Nat := (verdictOrder c.verdict, sevOrder c.severity)

/-- Strict lexicographic comparison of sort keys. -/
def keyLt (a b : Claim) : Bool :=
  (sortKey a).1 < (sortKey b).1 ||
  ((sortKey a).1 == (sortKey b).1 && (sortKey a).2 < (sortKey b).2)

/-- Stable insertion: the new claim goes after every already-placed claim whose
key is not strictly greater, which together with left-to-right insertion makes
`sortClaims` extensionally equal to Python's stable `sorted(..., key=...)`. -/
def insertClaim (c : Claim) : List Claim → List Claim
  | [] => [c]
  | x :: xs => if keyLt x c then x :: insertClaim c xs else c :: x :: xs

/-- `sorted(verified, key=lambda c: (verdict_order…, sev_order…))`
(detector.py line 269) as a stable insertion sort. -/
def sortClaims : List Claim → List Claim
  | [] => []
  | c :: cs => insertClaim c (sortClaims cs)

/-- A knowledge-base row `(id, priority, category, content)` as returned by
`load_current_focus_entries`. -/
abbrev Entry := String × String × String × String

/-- `detect_illusions` (detector.py lines 239-269), with the SQLite read
`load_current_focus_entries()` made an explicit input: extract from every
entry in order, deduplicate, verify, sort. -/
def detect_illusions (entries : List Entry) (reality : RealitySnapshot) : List Claim :=
  let allClaims := (entries.map fun e => extract_claims e.1 e.2.1 e.2.2.2).flatten
  sortClaims (verify_claims (dedupClaims allClaims) reality)

/- ── Warning level (engine.py lines 160-165, 256-261) ─────────────────────── -/

/-- `_warning_level` (engine.py lines 160-165). -/
def warningLevel (illusions : List Claim) (downSvcs : List String) : String :=
  if !downSvcs.isEmpty ||
     ((illusions.filter fun c => c.verdict == ILLUSION).any fun c =>
        c.severity == SEVERITY_HIGH) then "RED"
  else if (illusions.filter fun c => c.verdict == ILLUSION).any fun c =>
        c.severity == SEVERITY_MEDIUM then "AMBER"
  else "GREEN"

/-- `[name for name, s in reality.services.items() if not s.reachable]`
(engine.py line 260). -/
def downServices (svcs : List (String × ServiceState)) : List String :=
  (svcs.filter fun p => !p.2.reachable).map Prod.fst

/-- The warning-level computation as wired in `synthesize` (engine.py lines
256-261): the claim list is first filtered to ILLUSION verdicts, the down
services are derived from the service map. -/
def warningLevelOf (claims : List Claim) (svcs : List (String × ServiceState)) : String :=
  warningLevel (claims.filter fun c => c.verdict == ILLUSION) (downServices svcs)

/-- GREEN < AMBER < RED, the escalation order used to state monotonicity. -/
def levelRank (l : String) : Nat :=
  if l == "GREEN" then 0 else if l == "AMBER" then 1 else 2

/- ═══ Theorems ═══════════════════════════════════════════════════════════════ -/

/- ── Warning-level lemmas (for C1, C7, C10) ───────────────────────────────── -/

/-- The RED condition of `_warning_level`, as a proposition. -/
def RedCond (claims : List Claim) (svcs : List (String × ServiceState)) : Prop :=
  (∃ p ∈ svcs, p.2.reachable = false) ∨
  ∃ c ∈ claims, c.verdict = ILLUSION ∧ c.severity = SEVERITY_HIGH

/-- The AMBER condition of `_warning_level`, as a proposition. -/
def AmberCond (claims : List Claim) : Prop :=
  ∃ c ∈ claims, c.verdict = ILLUSION ∧ c.severity = SEVERITY_MEDIUM

lemma down_nonempty_iff (svcs : List (String × ServiceState)) :
    ((downServices svcs).isEmpty = false) ↔ ∃ p ∈ svcs, p.2.reachable = false := by
  simp [downServices, List.isEmpty_eq_false, List.map_eq_nil_iff, Ne,
    List.filter_eq_nil_iff]

lemma illusion_any_iff (claims : List Claim) (sev : String) :
    (((claims.filter fun c => c.verdict == ILLUSION).filter fun c =>
        c.verdict == ILLUSION).any fun c => c.severity == sev) = true ↔
      ∃ c ∈ claims, c.verdict = ILLUSION ∧ c.severity = sev := by
  simp only [List.any_eq_true, List.mem_filter, beq_iff_eq, and_assoc, and_self_left]

/-- The boolean RED test inside `_warning_level` decides `RedCond`. -/
lemma redBool_iff (claims : List Claim) (svcs : List (String × ServiceState)) :
    (!(downServices svcs).isEmpty ||
      ((claims.filter fun c => c.verdict == ILLUSION).filter fun c =>
          c.verdict == ILLUSION).any fun c => c.severity == SEVERITY_HIGH) = true ↔
      RedCond claims svcs := by
  rw [Bool.or_eq_true, Bool.not_eq_true']
  unfold RedCond
  rw [down_nonempty_iff, illusion_any_iff]

lemma wl_red_iff (claims : List Claim) (svcs : List (String × ServiceState)) :
    warningLevelOf claims svcs = "RED" ↔ RedCond claims svcs := by
  unfold warningLevelOf warningLevel
  split_ifs with h1 h2
  · exact iff_of_true rfl ((redBool_iff claims svcs).mp h1)
  · exact iff_of_false (by decide) fun hc => h1 ((redBool_iff claims svcs).mpr hc)
  · exact iff_of_false (by decide) fun hc => h1 ((redBool_iff claims svcs).mpr hc)

lemma wl_amber_iff (claims : List Claim) (svcs : List (String × ServiceState)) :
    warningLevelOf claims svcs = "AMBER" ↔
      ¬RedCond claims svcs ∧ AmberCond claims := by
  unfold warningLevelOf warningLevel
  split_ifs with h1 h2
  · exact iff_of_false (by decide)
      fun hc => hc.1 ((redBool_iff claims svcs).mp h1)
  · exact iff_of_true rfl
      ⟨fun hc => h1 ((redBool_iff claims svcs).mpr hc),
       (illusion_any_iff claims SEVERITY_MEDIUM).mp h2⟩
  · exact iff_of_false (by decide)
      fun hc => h2 ((illusion_any_iff claims SEVERITY_MEDIUM).mpr hc.2)

lemma wl_green_iff (claims : List Claim) (svcs : List (String × ServiceState)) :
    warningLevelOf claims svcs = "GREEN" ↔
      ¬RedCond claims svcs ∧ ¬AmberCond claims := by
  unfold warningLevelOf warningLevel
  split_ifs with h1 h2
  · exact iff_of_false (by decide)
      fun hc => hc.1 ((redBool_iff claims svcs).mp h1)
  · exact iff_of_false (by decide)
      fun hc => hc.2 ((illusion_any_iff claims SEVERITY_MEDIUM).mp h2)
  · exact iff_of_true rfl
      ⟨fun hc => h1 ((redBool_iff claims svcs).mpr hc),
       fun hc => h2 ((illusion_any_iff claims SEVERITY_MEDIUM).mpr hc)⟩

/-- C1: the three-level escalation of `_warning_level` (engine.py lines
160-165), as wired by `synthesize`: RED iff some service is unreachable or
some ILLUSION-verdict claim has severity HIGH; otherwise AMBER iff some
ILLUSION-verdict claim has severity MEDIUM; otherwise GREEN. -/
theorem warning_level_three_way (claims : List Claim)
    (svcs : List (String × ServiceState)) :
    (warningLevelOf claims svcs = "RED" ↔ RedCond claims svcs) ∧
    (warningLevelOf claims svcs = "AMBER" ↔
      ¬RedCond claims svcs ∧ AmberCond claims) ∧
    (warningLevelOf claims svcs = "GREEN" ↔
      ¬RedCond claims svcs ∧ ¬AmberCond claims) :=
  ⟨wl_red_iff claims svcs, wl_amber_iff claims svcs, wl_green_iff claims svcs⟩

/-- Witness for C1 at a concrete input: the empty snapshot is GREEN. -/
theorem warning_level_three_way_witness : warningLevelOf [] [] = "GREEN" := by
  apply (warning_level_three_way [] []).2.2.mpr
  constructor
  · rintro (⟨p, hp, -⟩ | ⟨c, hc, -⟩)
    · exact absurd hp (List.not_mem_nil _)
    · exact absurd hc (List.not_mem_nil _)
  · rintro ⟨c, hc, -⟩
    exact absurd hc (List.not_mem_nil _)

lemma levelRank_le_two (l : String) : levelRank l ≤ 2 := by
  unfold levelRank
  split_ifs <;> omega

lemma warningLevelOf_red_of_redCond {claims : List Claim}
    {svcs : List (String × ServiceState)} (h : RedCond claims svcs) :
    warningLevelOf claims svcs = "RED" :=
  (wl_red_iff claims svcs).mpr h

/-- C7: warning-level monotonicity.  Adding one unreachable service to the
service map, or one ILLUSION-verdict HIGH-severity claim to the claim list,
never lowers the warning level in the order GREEN < AMBER < RED. -/
theorem warning_level_monotone :
    (∀ (claims : List Claim) (s1 s2 : List (String × ServiceState))
        (name : String) (st : ServiceState), st.reachable = false →
        levelRank (warningLevelOf claims (s1 ++ s2)) ≤
          levelRank (warningLevelOf claims (s1 ++ (name, st) :: s2))) ∧
    (∀ (cl1 cl2 : List Claim) (svcs : List (String × ServiceState)) (c : Claim),
        c.verdict = ILLUSION → c.severity = SEVERITY_HIGH →
        levelRank (warningLevelOf (cl1 ++ cl2) svcs) ≤
          levelRank (warningLevelOf (cl1 ++ c :: cl2) svcs)) := by
  constructor
  · intro claims s1 s2 name st hst
    rw [warningLevelOf_red_of_redCond
      (Or.inl ⟨(name, st),
        List.mem_append.mpr (Or.inr (List.mem_cons_self _ _)), hst⟩)]
    calc levelRank (warningLevelOf claims (s1 ++ s2)) ≤ 2 := levelRank_le_two _
      _ = levelRank "RED" := by rfl
  · intro cl1 cl2 svcs c hv hs
    rw [warningLevelOf_red_of_redCond
      (Or.inr ⟨c, List.mem_append.mpr (Or.inr (List.mem_cons_self _ _)), hv, hs⟩)]
    calc levelRank (warningLevelOf (cl1 ++ cl2) svcs) ≤ 2 := levelRank_le_two _
      _ = levelRank "RED" := by rfl

/-- A concrete unreachable service used in witnesses. -/
def coachDown : ServiceState :=
  { name := "coach", url := "https://cloudeye-coach-production.up.railway.app",
    reachable := false, error := some "timeout" }

theorem warning_level_monotone_witness :
    levelRank (warningLevelOf []
      ([] ++ ([] : List (String × ServiceState)))) ≤
    levelRank (warningLevelOf [] ([] ++ ("coach", coachDown) :: [])) :=
  warning_level_monotone.1 [] [] [] "coach" coachDown rfl

/- ── Shape of the extractor's output (for C6 and C10) ─────────────────────── -/

/-- Every claim produced by `extract_claims` comes from one of the four rules,
with the shape that rule hard-codes: in particular every service-health claim
carries an expected value of the form `<service>:UP` (the `RE_SERVICE_DOWN`
pattern is declared but never applied), and every bug claim is created with
severity HIGH and expected value `bug:present`. -/
lemma extract_claims_shape (eid pr content : String) (c : Claim)
    (hc : c ∈ extract_claims eid pr content) :
    c.claim_type = "git_commit" ∨
    (c.claim_type = "service_health" ∧ ∃ s, c.expected_value = s ++ ":UP") ∨
    (c.claim_type = "bug_active" ∧ c.severity = SEVERITY_HIGH ∧
      c.expected_value = "bug:present") ∨
    c.claim_type = "file_exists" := by
  cases hb : bugMarkerPresent content with
  | false =>
    simp only [extract_claims, hb, if_false, List.append_nil, Bool.false_eq_true,
      List.mem_append, List.mem_map, List.mem_filterMap, Option.map_eq_some'] at hc
    rcases hc with (⟨m, -, rfl⟩ | ⟨m, -, sn, -, rfl⟩) | ⟨m, -, hm⟩
    · exact Or.inl rfl
    · exact Or.inr (Or.inl ⟨rfl, sn, rfl⟩)
    · split at hm
      · simp only [Option.some.injEq] at hm
        subst hm
        exact Or.inr (Or.inr (Or.inr rfl))
      · exact absurd hm (by simp)
  | true =>
    simp only [extract_claims, hb, if_true, List.mem_append, List.mem_map,
      List.mem_filterMap, Option.map_eq_some'] at hc
    rcases hc with ((⟨m, -, rfl⟩ | ⟨m, -, sn, -, rfl⟩) | ⟨m, -, rfl⟩) | ⟨m, -, hm⟩
    · exact Or.inl rfl
    · exact Or.inr (Or.inl ⟨rfl, sn, rfl⟩)
    · exact Or.inr (Or.inr (Or.inl ⟨rfl, rfl, rfl⟩))
    · split at hm
      · simp only [Option.some.injEq] at hm
        subst hm
        exact Or.inr (Or.inr (Or.inr rfl))
      · exact absurd hm (by simp)

/-- C10: claims whose verdict is not ILLUSION never influence the warning
level.  Inserting or removing a claim with verdict UNVERIFIABLE or VERIFIED
leaves `_warning_level` unchanged; bug-inventory (`bug_active`) claims are
created with severity HIGH by `extract_claims` and always resolve to
UNVERIFIABLE in `verify_claims` (severity untouched). -/
theorem non_illusion_claims_inert :
    (∀ (cl1 cl2 : List Claim) (c : Claim) (svcs : List (String × ServiceState)),
        c.verdict = UNVERIFIABLE ∨ c.verdict = VERIFIED →
        warningLevelOf (cl1 ++ c :: cl2) svcs = warningLevelOf (cl1 ++ cl2) svcs) ∧
    (∀ (reality : RealitySnapshot) (c : Claim),
        c.claim_type = "bug_active" →
        (verifyClaim reality c).verdict = UNVERIFIABLE ∧
        (verifyClaim reality c).severity = c.severity) ∧
    (∀ (eid pr content : String) (c : Claim),
        c ∈ extract_claims eid pr content → c.claim_type = "bug_active" →
        c.severity = SEVERITY_HIGH) := by
  refine ⟨?_, ?_, ?_⟩
  · intro cl1 cl2 c svcs hv
    unfold warningLevelOf
    congr 1
    rw [List.filter_append, List.filter_append, List.filter_cons]
    rcases hv with h | h <;> rw [h] <;> simp [ILLUSION, UNVERIFIABLE, VERIFIED]
  · intro reality c hc
    simp [verifyClaim, hc, UNVERIFIABLE]
  · intro eid pr content c hc htype
    rcases extract_claims_shape eid pr content c hc with h | ⟨h, -⟩ | ⟨-, h, -⟩ | h
    · rw [htype] at h; exact absurd h (by decide)
    · rw [htype] at h; exact absurd h (by decide)
    · exact h
    · rw [htype] at h; exact absurd h (by decide)

/-- A concrete UNVERIFIABLE claim used in witnesses. -/
def unvClaimEx : Claim :=
  { entry_id := "e1", entry_priority := "current focus",
    claim_type := "bug_active", claim_text := "BUG 1 still present",
    expected_value := "bug:present", verdict := UNVERIFIABLE,
    severity := SEVERITY_HIGH }

theorem non_illusion_claims_inert_witness :
    warningLevelOf ([] ++ unvClaimEx :: []) [] = warningLevelOf ([] ++ []) [] :=
  non_illusion_claims_inert.1 [] [] unvClaimEx [] (Or.inl rfl)

/-- C6: contrary to the spec's extraction table, `extract_claims` can never
produce a service-health claim with expected value `<service>:DOWN`: the only
service rule iterated is `RE_SERVICE_UP`, so every service-health claim's
expected value ends in `:UP` (`RE_SERVICE_DOWN` is defined on detector.py line
55 but never applied, and the verifier's `DOWN` branch is dead code).  In
particular the entry text `"coach: DOWN"` — a recognized service name followed
on the same line by a down-status word — yields no claim at all. -/
theorem service_down_never_extracted :
    (∀ (eid pr content : String) (c : Claim),
        c ∈ extract_claims eid pr content → c.claim_type = "service_health" →
        ∃ s, c.expected_value = s ++ ":UP") ∧
    extract_claims "e1" "current focus" "coach: DOWN" = [] := by
  constructor
  · intro eid pr content c hc htype
    rcases extract_claims_shape eid pr content c hc with h | ⟨-, h⟩ | ⟨h, -⟩ | h
    · rw [htype] at h; exact absurd h (by decide)
    · exact h
    · rw [htype] at h; exact absurd h (by decide)
    · rw [htype] at h; exact absurd h (by decide)
  · decide

/-- The service-health claim `extract_claims` produces for `"coach: UP"`. -/
def upClaimEx : Claim :=
  { entry_id := "e1", entry_priority := "current focus",
    claim_type := "service_health", claim_text := "coach: UP",
    expected_value := "coach:UP", verdict := UNVERIFIABLE }

theorem service_down_never_extracted_witness :
    ∃ s, upClaimEx.expected_value = s ++ ":UP" :=
  service_down_never_extracted.1 "e1" "current focus" "coach: UP" upClaimEx
    (by decide) rfl

/- ── Sortedness of detect_illusions (C2) ──────────────────────────────────── -/

/-- Non-strict lexicographic order on the `(verdict priority, severity
priority)` sort keys. -/
def SKeyLE (a b : Claim) : Prop :=
  (sortKey a).1 < (sortKey b).1 ∨
  ((sortKey a).1 = (sortKey b).1 ∧ (sortKey a).2 ≤ (sortKey b).2)

lemma skeyle_of_keyLt {a b : Claim} (h : keyLt a b = true) : SKeyLE a b := by
  unfold keyLt at h
  unfold SKeyLE
  simp only [Bool.or_eq_true, Bool.and_eq_true, decide_eq_true_eq, beq_iff_eq] at h
  rcases h with h | ⟨h1, h2⟩
  · exact Or.inl h
  · exact Or.inr ⟨h1, Nat.le_of_lt h2⟩

lemma skeyle_of_not_keyLt {a b : Claim} (h : keyLt a b = false) : SKeyLE b a := by
  unfold keyLt at h
  unfold SKeyLE
  simp only [Bool.or_eq_false_iff, Bool.and_eq_false_iff, decide_eq_false_iff_not,
    Nat.not_lt, beq_eq_false_iff_ne] at h
  obtain ⟨h1, h2⟩ := h
  rcases Nat.lt_or_ge (sortKey b).1 (sortKey a).1 with hlt | hge
  · exact Or.inl hlt
  · have heq : (sortKey b).1 = (sortKey a).1 := Nat.le_antisymm h1 hge
    rcases h2 with h2 | h2
    · exact absurd heq.symm h2
    · exact Or.inr ⟨heq, h2⟩

lemma skeyle_trans {a b c : Claim} (h1 : SKeyLE a b) (h2 : SKeyLE b c) :
    SKeyLE a c := by
  unfold SKeyLE at h1 h2 ⊢
  omega

lemma mem_insertClaim {y c : Claim} : ∀ {l : List Claim},
    y ∈ insertClaim c l → y = c ∨ y ∈ l := by
  intro l
  induction l with
  | nil => intro h; simpa [insertClaim] using h
  | cons x xs ih =>
    intro h
    unfold insertClaim at h
    split at h
    · rcases List.mem_cons.mp h with h | h
      · exact Or.inr (h ▸ List.mem_cons_self x xs)
      · rcases ih h with h | h
        · exact Or.inl h
        · exact Or.inr (List.mem_cons_of_mem x h)
    · rcases List.mem_cons.mp h with h | h
      · exact Or.inl h
      · exact Or.inr h

lemma pairwise_insertClaim {c : Claim} : ∀ {l : List Claim},
    l.Pairwise SKeyLE → (insertClaim c l).Pairwise SKeyLE := by
  intro l
  induction l with
  | nil => intro _; simp [insertClaim]
  | cons x xs ih =>
    intro hp
    rcases List.pairwise_cons.mp hp with ⟨hx, hxs⟩
    unfold insertClaim
    split
    · -- keyLt x c : x stays first, c goes into xs
      rename_i hlt
      refine List.pairwise_cons.mpr ⟨?_, ih hxs⟩
      intro y hy
      rcases mem_insertClaim hy with rfl | hy
      · exact skeyle_of_keyLt hlt
      · exact hx y hy
    · -- ¬ keyLt x c : c goes first
      rename_i hnlt
      have hcx : SKeyLE c x := skeyle_of_not_keyLt (Bool.eq_false_iff.mpr hnlt)
      refine List.pairwise_cons.mpr ⟨?_, hp⟩
      intro y hy
      rcases List.mem_cons.mp hy with rfl | hy
      · exact hcx
      · exact skeyle_trans hcx (hx y hy)

lemma pairwise_sortClaims : ∀ l : List Claim, (sortClaims l).Pairwise SKeyLE := by
  intro l
  induction l with
  | nil => simp [sortClaims]
  | cons c cs ih => exact pairwise_insertClaim ih

/-- C2: the list returned by `detect_illusions` is sorted by the lexicographic
key (verdict priority: ILLUSION=0, UNVERIFIABLE=1, VERIFIED=2, STALE=3;
severity priority: HIGH=0, MEDIUM=1, LOW=2): every adjacent pair of output
claims has non-decreasing keys. -/
theorem detect_illusions_sorted (entries : List Entry) (reality : RealitySnapshot) :
    (detect_illusions entries reality).Chain' (fun a b =>
      (sortKey a).1 < (sortKey b).1 ∨
      ((sortKey a).1 = (sortKey b).1 ∧ (sortKey a).2 ≤ (sortKey b).2)) := by
  exact (pairwise_sortClaims _).chain'

/- ── Deduplication (C3) ───────────────────────────────────────────────────── -/

lemma mem_dedupAux_not_seen {c : Claim} : ∀ {l : List Claim}
    {seen : List (String × String)}, c ∈ dedupAux l seen → dkey c ∉ seen := by
  intro l
  induction l with
  | nil => intro seen h; simp [dedupAux] at h
  | cons x xs ih =>
    intro seen h
    unfold dedupAux at h
    split at h
    · exact ih h
    · rcases List.mem_cons.mp h with rfl | h
      · assumption
      · have := ih h
        intro hmem
        exact this (List.mem_cons_of_mem _ hmem)

lemma dedupAux_pairwise : ∀ (l : List Claim) (seen : List (String × String)),
    (dedupAux l seen).Pairwise (fun a b => dkey a ≠ dkey b) := by
  intro l
  induction l with
  | nil => intro seen; simp [dedupAux]
  | cons x xs ih =>
    intro seen
    unfold dedupAux
    split
    · exact ih seen
    · refine List.pairwise_cons.mpr ⟨?_, ih _⟩
      intro y hy heq
      exact mem_dedupAux_not_seen hy (heq ▸ List.mem_cons_self _ _)

lemma dedupAux_first {c : Claim} : ∀ {l : List Claim}
    {seen : List (String × String)}, c ∈ dedupAux l seen →
    (l.find? fun x => dkey x == dkey c) = some c := by
  intro l
  induction l with
  | nil => intro seen h; simp [dedupAux] at h
  | cons x xs ih =>
    intro seen h
    unfold dedupAux at h
    split at h
    · -- dkey x ∈ seen: x is skipped, and c's key is not in seen, so keys differ
      rename_i hseen
      have hne : dkey x ≠ dkey c := by
        intro heq
        exact mem_dedupAux_not_seen h (heq ▸ hseen)
      rw [List.find?_cons]
      rw [show (dkey x == dkey c) = false from beq_eq_false_iff_ne.mpr hne]
      exact ih h
    · rcases List.mem_cons.mp h with rfl | h
      · rw [List.find?_cons]
        rw [show (dkey c == dkey c) = true from beq_self_eq_true _]
      · have hne : dkey x ≠ dkey c := by
          intro heq
          exact mem_dedupAux_not_seen h (heq ▸ List.mem_cons_self _ _)
        rw [List.find?_cons]
        rw [show (dkey x == dkey c) = false from beq_eq_false_iff_ne.mpr hne]
        exact ih h

/-- C3: after the dedup pass of `detect_illusions` (and before verification) no
two surviving claims share a `(claim_type, expected_value[:40])` key, and every
surviving claim is the first occurrence of its key in extraction order. -/
theorem dedup_unique_first (entries : List Entry) :
    ((dedupClaims ((entries.map fun e =>
        extract_claims e.1 e.2.1 e.2.2.2).flatten)).Pairwise
      fun a b => dkey a ≠ dkey b) ∧
    ∀ c ∈ dedupClaims ((entries.map fun e =>
        extract_claims e.1 e.2.1 e.2.2.2).flatten),
      (((entries.map fun e => extract_claims e.1 e.2.1 e.2.2.2).flatten).find?
        fun x => dkey x == dkey c) = some c :=
  ⟨dedupAux_pairwise _ _, fun _ hc => dedupAux_first hc⟩

/-- The first of the two duplicate revision claims in the C3 witness entry. -/
def gitClaimEx : Claim :=
  { entry_id := "e1", entry_priority := "current focus",
    claim_type := "git_commit", claim_text := "commit 1a2b3c4",
    expected_value := "1a2b3c4", verdict := UNVERIFIABLE }

/-- Witness for C3: with one entry mentioning the same revision token twice,
the deduplicated pipeline keeps the first extracted occurrence. -/
theorem dedup_unique_first_witness :
    ((([("e1", "current focus", "cat",
        "commit 1a2b3c4 then again at 1a2b3c4 works")].map fun (e : Entry) =>
        extract_claims e.1 e.2.1 e.2.2.2).flatten).find?
        fun x => dkey x == dkey gitClaimEx) = some gitClaimEx :=
  (dedup_unique_first [("e1", "current focus", "cat",
      "commit 1a2b3c4 then again at 1a2b3c4 works")]).2 gitClaimEx (by decide)

/- ── Service-health verification (C4) ─────────────────────────────────────── -/

lemma splitColonAux_append (svc state : List Char)
    (hsvc : ∀ ch ∈ svc, ch ≠ ':') :
    splitColonAux (svc ++ ':' :: state) = some (svc, state) := by
  induction svc with
  | nil => simp [splitColonAux]
  | cons c t ih =>
    have hc : (c == ':') = false :=
      beq_eq_false_iff_ne.mpr (hsvc c (List.mem_cons_self _ _))
    have iht : splitColonAux (t.append (':' :: state)) = some (t, state) :=
      ih fun ch hch => hsvc ch (List.mem_cons_of_mem _ hch)
    simp only [List.cons_append, splitColonAux, hc, Bool.false_eq_true, if_false]
    rw [iht]
    rfl

lemma splitFirstColon_eq (svc state : String)
    (hsvc : ∀ ch ∈ svc.toList, ch ≠ ':') :
    splitFirstColon (svc ++ ":" ++ state) = (svc, state) := by
  unfold splitFirstColon
  have hdata : (svc ++ ":" ++ state).toList = svc.toList ++ ':' :: state.toList := by
    show (svc ++ ":" ++ state).data = svc.data ++ ':' :: state.data
    rw [String.data_append, String.data_append, List.append_assoc]
    rfl
  rw [hdata, splitColonAux_append _ _ hsvc]
  rfl

/-- C4: verification of a service-health claim with expected value
`<service>:<state>` (detector.py lines 158-177): unknown service ⇒
UNVERIFIABLE with a "not in scan scope" note; UP and reachable ⇒ VERIFIED;
DOWN and unreachable ⇒ VERIFIED; UP but unreachable ⇒ ILLUSION with severity
HIGH; every other combination ⇒ UNVERIFIABLE. -/
theorem verify_service_health (reality : RealitySnapshot) (c : Claim)
    (svc state : String) (htype : c.claim_type = "service_health")
    (hexp : c.expected_value = svc ++ ":" ++ state)
    (hsvc : ∀ ch ∈ svc.toList, ch ≠ ':') :
    (lookupStr reality.services svc = none →
       (verifyClaim reality c).verdict = UNVERIFIABLE ∧
       (verifyClaim reality c).note =
         some ("Service '" ++ svc ++ "' not in scan scope")) ∧
    (∀ s, lookupStr reality.services svc = some s →
       (s.reachable = true → state = "UP" →
          (verifyClaim reality c).verdict = VERIFIED) ∧
       (s.reachable = false → state = "DOWN" →
          (verifyClaim reality c).verdict = VERIFIED) ∧
       (s.reachable = false → state = "UP" →
          (verifyClaim reality c).verdict = ILLUSION ∧
          (verifyClaim reality c).severity = SEVERITY_HIGH ∧
          (verifyClaim reality c).note =
            some "Service claimed UP but is unreachable") ∧
       (¬(s.reachable = true ∧ state = "UP") →
        ¬(s.reachable = false ∧ state = "DOWN") →
        ¬(s.reachable = false ∧ state = "UP") →
          (verifyClaim reality c).verdict = UNVERIFIABLE)) := by
  have hsplit := splitFirstColon_eq svc state hsvc
  constructor
  · intro hnone
    constructor <;>
      simp [verifyClaim, htype, hexp, hsplit, hnone]
  · intro s hsome
    refine ⟨?_, ?_, ?_, ?_⟩
    · intro hr hst
      subst hst
      simp [verifyClaim, htype, hexp, hsplit, hsome, hr]
    · intro hr hst
      subst hst
      simp [verifyClaim, htype, hexp, hsplit, hsome, hr]
    · intro hr hst
      subst hst
      refine ⟨?_, ?_, ?_⟩ <;>
        simp [verifyClaim, htype, hexp, hsplit, hsome, hr]
    · intro h1 h2 h3
      cases hr : s.reachable with
      | true =>
        have hne : ¬(state = "UP") := fun hst => h1 ⟨hr, hst⟩
        have hbeq : (state == "UP") = false := beq_eq_false_iff_ne.mpr hne
        simp [verifyClaim, htype, hexp, hsplit, hsome, hr, hbeq]
      | false =>
        have hneU : ¬(state = "UP") := fun hst => h3 ⟨hr, hst⟩
        have hneD : ¬(state = "DOWN") := fun hst => h2 ⟨hr, hst⟩
        have hbeqU : (state == "UP") = false := beq_eq_false_iff_ne.mpr hneU
        have hbeqD : (state == "DOWN") = false := beq_eq_false_iff_ne.mpr hneD
        simp [verifyClaim, htype, hexp, hsplit, hsome, hr, hbeqU, hbeqD]

/-- A snapshot whose only service, `coach`, is unreachable. -/
def coachDownReality : RealitySnapshot :=
  { scanned_at := "2025-12-30T12:00:00+00:00", scan_duration_ms := 1200,
    git := [], services := [("coach", coachDown)],
    librarian := { db_path := "librarian.db", readable := false,
                   error := some "DB not found: librarian.db" },
    sapphire := { db_path := "sapphire_torus.db", readable := false,
                  error := some "DB not found: sapphire_torus.db" },
    filesystem := [] }

theorem verify_service_health_witness :
    (verifyClaim coachDownReality upClaimEx).verdict = ILLUSION ∧
    (verifyClaim coachDownReality upClaimEx).severity = SEVERITY_HIGH := by
  have h := verify_service_health coachDownReality upClaimEx "coach" "UP"
    rfl rfl (by decide)
  have h2 := (h.2 coachDown rfl).2.2.1 rfl rfl
  exact ⟨h2.1, h2.2.1⟩

/- ── Revision-reference verification (C5) ─────────────────────────────────── -/

/-- Some repository's truthy head commit starts (case-insensitively) with the
expected token — the success condition of the git-commit loop. -/
def GitHit (git : List (String × GitState)) (exp : String) : Prop :=
  ∃ p ∈ git, ∃ hd, p.2.head_commit = some hd ∧ hd ≠ "" ∧
    lowerStartsWith hd exp = true

lemma findGitMatch_cons_none {rn : String} {g : GitState}
    {rest : List (String × GitState)} {exp : String}
    (hh : g.head_commit = none) :
    findGitMatch ((rn, g) :: rest) exp = findGitMatch rest exp := by
  simp [findGitMatch, hh]

lemma findGitMatch_cons_some_true {rn : String} {g : GitState}
    {rest : List (String × GitState)} {exp hd : String}
    (hh : g.head_commit = some hd)
    (hcond : (hd != "" && lowerStartsWith hd exp) = true) :
    findGitMatch ((rn, g) :: rest) exp = some (rn, hd) := by
  simp only [findGitMatch, hh]
  rw [if_pos hcond]

lemma findGitMatch_cons_some_false {rn : String} {g : GitState}
    {rest : List (String × GitState)} {exp hd : String}
    (hh : g.head_commit = some hd)
    (hcond : (hd != "" && lowerStartsWith hd exp) = false) :
    findGitMatch ((rn, g) :: rest) exp = findGitMatch rest exp := by
  simp only [findGitMatch, hh]
  rw [if_neg (by rw [hcond]; exact Bool.false_ne_true)]

lemma findGitMatch_some_of_hit : ∀ {git : List (String × GitState)}
    {exp : String}, GitHit git exp → ∃ rn hd, findGitMatch git exp = some (rn, hd) := by
  intro git
  induction git with
  | nil => intro exp h; rcases h with ⟨p, hp, -⟩; simp at hp
  | cons q rest ih =>
    intro exp h
    obtain ⟨rn, g⟩ := q
    cases hh : g.head_commit with
    | some hd =>
      cases hcond : (hd != "" && lowerStartsWith hd exp) with
      | true => exact ⟨rn, hd, findGitMatch_cons_some_true hh hcond⟩
      | false =>
        rw [findGitMatch_cons_some_false hh hcond]
        apply ih
        rcases h with ⟨p, hp, hd', hhd', hne', hsw'⟩
        rcases List.mem_cons.mp hp with rfl | hp
        · exfalso
          rw [hh] at hhd'
          injection hhd' with he
          subst he
          rw [Bool.and_eq_false_iff] at hcond
          rcases hcond with hcond | hcond
          · exact hne' (by simpa using hcond)
          · exact absurd hsw' (by simp [hcond])
        · exact ⟨p, hp, hd', hhd', hne', hsw'⟩
    | none =>
      rw [findGitMatch_cons_none hh]
      apply ih
      rcases h with ⟨p, hp, hd', hhd', hne', hsw'⟩
      rcases List.mem_cons.mp hp with rfl | hp
      · rw [hh] at hhd'; exact absurd hhd' (by simp)
      · exact ⟨p, hp, hd', hhd', hne', hsw'⟩

lemma findGitMatch_some_spec : ∀ {git : List (String × GitState)}
    {exp rn : String} {hd : String},
    findGitMatch git exp = some (rn, hd) →
    ∃ p ∈ git, p.1 = rn ∧ p.2.head_commit = some hd ∧ hd ≠ "" ∧
      lowerStartsWith hd exp = true := by
  intro git
  induction git with
  | nil => intro exp rn hd h; simp [findGitMatch] at h
  | cons q rest ih =>
    intro exp rn hd h
    obtain ⟨rn', g⟩ := q
    cases hh : g.head_commit with
    | some hd' =>
      cases hcond : (hd' != "" && lowerStartsWith hd' exp) with
      | true =>
        rw [findGitMatch_cons_some_true hh hcond] at h
        simp only [Option.some.injEq, Prod.mk.injEq] at h
        obtain ⟨rfl, rfl⟩ := h
        rw [Bool.and_eq_true] at hcond
        exact ⟨(rn', g), List.mem_cons_self _ _, rfl, hh,
          by simpa using hcond.1, hcond.2⟩
      | false =>
        rw [findGitMatch_cons_some_false hh hcond] at h
        obtain ⟨p, hp, h1, h2, h3, h4⟩ := ih h
        exact ⟨p, List.mem_cons_of_mem _ hp, h1, h2, h3, h4⟩
    | none =>
      rw [findGitMatch_cons_none hh] at h
      obtain ⟨p, hp, h1, h2, h3, h4⟩ := ih h
      exact ⟨p, List.mem_cons_of_mem _ hp, h1, h2, h3, h4⟩

lemma findGitMatch_none_of_not_hit : ∀ {git : List (String × GitState)}
    {exp : String}, ¬GitHit git exp → findGitMatch git exp = none := by
  intro git exp h
  cases hf : findGitMatch git exp with
  | none => rfl
  | some pr =>
    obtain ⟨q, hq, h1, h2, h3, h4⟩ := findGitMatch_some_spec
      (show findGitMatch git exp = some (pr.1, pr.2) by rw [hf])
    exact absurd ⟨q, hq, pr.2, h2, h3, h4⟩ h

/-- The repository snapshot of Scenario A: one repository whose head revision
is `1a2b3c4d5e`. -/
def scenarioAReality : RealitySnapshot :=
  { scanned_at := "2025-12-30T12:00:00+00:00", scan_duration_ms := 1200,
    git := [("coach",
      { repo_name := "coach",
        repo_path := "cloudeye-coach", available := true,
        head_commit := some "1a2b3c4d5e", branch := some "master" })],
    services := [],
    librarian := { db_path := "librarian.db", readable := false,
                   error := some "DB not found: librarian.db" },
    sapphire := { db_path := "sapphire_torus.db", readable := false,
                  error := some "DB not found: sapphire_torus.db" },
    filesystem := [] }

/-- C5: verification of a revision-reference (git_commit) claim (detector.py
lines 140-156).  If some repository's truthy head revision starts
case-insensitively with the expected token, the verdict is VERIFIED, the
actual value is that repository's head and the note names it; otherwise the
verdict is ILLUSION with severity MEDIUM and the actual value renders the
mapping of every repository with a head to that head.  Scenario A: the entry
`"branch master at 1a2b3c4"` against a head `1a2b3c4d5e` verifies with actual
value `1a2b3c4d5e`. -/
theorem verify_git_commit (reality : RealitySnapshot) (c : Claim)
    (htype : c.claim_type = "git_commit") :
    (GitHit reality.git c.expected_value →
       (verifyClaim reality c).verdict = VERIFIED ∧
       ∃ p ∈ reality.git, ∃ hd, p.2.head_commit = some hd ∧ hd ≠ "" ∧
         lowerStartsWith hd c.expected_value = true ∧
         (verifyClaim reality c).actual_value = some hd ∧
         (verifyClaim reality c).note = some ("Matches " ++ p.1 ++ " HEAD")) ∧
    (¬GitHit reality.git c.expected_value →
       (verifyClaim reality c).verdict = ILLUSION ∧
       (verifyClaim reality c).severity = SEVERITY_MEDIUM ∧
       (verifyClaim reality c).actual_value =
         some (pyDictRepr (collectHeads reality.git)) ∧
       (verifyClaim reality c).note =
         some "Commit not found as HEAD in any known repo") ∧
    ((verify_claims (extract_claims "e1" "current focus"
        "branch master at 1a2b3c4") scenarioAReality).map
        (fun cl => (cl.verdict, cl.actual_value)) =
      [(VERIFIED, some "1a2b3c4d5e")]) := by
  refine ⟨?_, ?_, by decide⟩
  · intro hhit
    obtain ⟨rn, hd, hf⟩ := findGitMatch_some_of_hit hhit
    obtain ⟨p, hp, hrn, hhd, hne, hsw⟩ := findGitMatch_some_spec hf
    constructor
    · simp [verifyClaim, htype, hf]
    · refine ⟨p, hp, hd, hhd, hne, hsw, ?_, ?_⟩ <;>
        simp [verifyClaim, htype, hf, hrn]
  · intro hmiss
    have hf := findGitMatch_none_of_not_hit hmiss
    refine ⟨?_, ?_, ?_, ?_⟩ <;> simp [verifyClaim, htype, hf]

theorem verify_git_commit_witness :
    (verifyClaim scenarioAReality gitClaimEx).verdict = VERIFIED :=
  ((verify_git_commit scenarioAReality gitClaimEx rfl).1
    ⟨("coach",
      { repo_name := "coach", repo_path := "cloudeye-coach", available := true,
        head_commit := some "1a2b3c4d5e", branch := some "master" }),
      List.mem_cons_self _ _, "1a2b3c4d5e", rfl, by decide, by decide⟩).1

/- ── Repository probe `scan_repo` (scanner.py lines 88-140) and C9 ────────── -/

/-- The effect environment of one `scan_repo` call: whether the path exists
and the result of each `_git` invocation.  `_git` returns the command's
stripped stdout, or `None` when the command fails or raises (scanner.py lines
88-102) — so a `none` here covers both a missing git repository and any
subprocess failure, and no exception escapes. -/
structure GitEnv where
  pathExists : Bool
  revParseHead : Option String := none
  revParseBranch : Option String := none
  statusPorcelain : Option String := none
  revListLeftRight : Option String := none
  deriving DecidableEq, Repr

/-- Python's `str.strip()` (ASCII whitespace on both ends). -/
def pyStrip (s : String) : String :=
  String.mk (((s.toList.dropWhile isSpaceCh).reverse.dropWhile isSpaceCh).reverse)

/-- Split on newline characters, modelling `str.splitlines()` for the
newline-separated porcelain output. -/
def splitNl (s : String) : List String :=
  (s.toList.splitOn '\n').map String.mk

/-- The porcelain-status classification loop of `scan_repo` (scanner.py lines
122-133): lines shorter than two characters are skipped; `??` marks an
untracked file, otherwise a non-space second status character marks a modified
file, otherwise a non-space first character marks a staged file. -/
def statusClassify : List String → List String × List String × List String
  | [] => ([], [], [])
  | line :: rest =>
    let acc := statusClassify rest
    match line.toList with
    | c0 :: c1 :: _ =>
      let fname := pyStrip (line.drop 3)
      if c0 == '?' && c1 == '?' then (fname :: acc.1, acc.2.1, acc.2.2)
      else if c1 != ' ' then (acc.1, fname :: acc.2.1, acc.2.2)
      else if c0 != ' ' then (acc.1, acc.2.1, fname :: acc.2.2)
      else acc
    | _ => acc

/-- `scan_repo` (scanner.py lines 104-140), with filesystem and subprocess
effects supplied by a `GitEnv`.  Every failure path returns a degraded
`GitState` — the embedding is total, as the source never lets an exception
escape this boundary. -/
def scan_repo (name path : String) (env : GitEnv) : GitState :=
  let base : GitState :=
    { repo_name := name, repo_path := path, available := env.pathExists }
  if !env.pathExists then
    { base with error := some ("Path not found: " ++ path) }
  else
    match env.revParseHead with
    | none =>
      { base with available := false,
                  error := some "Not a git repository or git not available" }
    | some head =>
      let st1 := { base with head_commit := some head,
                             branch := env.revParseBranch }
      let st2 :=
        match env.statusPorcelain with
        | some raw =>
          if raw == "" then st1
          else
            let parts := statusClassify (splitNl raw)
            { st1 with untracked := parts.1, modified := parts.2.1,
                       staged := parts.2.2 }
        | none => st1
      match env.revListLeftRight with
      | some ab => if ab == "" then st2 else { st2 with ahead_behind := some ab }
      | none => st2

/-- C9: `scan_repo` degrades instead of raising.  Whenever the returned state
has `available = false` the head revision is unset and the error is a
non-empty string; a missing path and a failing head query each produce the
corresponding degraded state. -/
theorem scan_repo_degraded (name path : String) (env : GitEnv) :
    ((scan_repo name path env).available = false →
       (scan_repo name path env).head_commit = none ∧
       ∃ e, (scan_repo name path env).error = some e ∧ e ≠ "") ∧
    (env.pathExists = false →
       scan_repo name path env =
         { repo_name := name, repo_path := path, available := false,
           error := some ("Path not found: " ++ path) }) ∧
    (env.pathExists = true → env.revParseHead = none →
       scan_repo name path env =
         { repo_name := name, repo_path := path, available := false,
           error := some "Not a git repository or git not available" }) := by
  have hne : ("Path not found: " ++ path) ≠ "" := by
    intro hcon
    have h2 : ("Path not found: " ++ path).data = ([] : List Char) :=
      congrArg String.data hcon
    rw [String.data_append] at h2
    exact absurd (List.append_eq_nil.mp h2).1 (by decide)
  have havail : (scan_repo name path env).available =
      (env.pathExists && env.revParseHead.isSome) := by
    cases hp : env.pathExists <;> cases hh : env.revParseHead <;>
      cases hst : env.statusPorcelain <;> cases hab : env.revListLeftRight <;>
        simp [scan_repo, hp, hh, hst, hab, apply_ite]
  refine ⟨?_, ?_, ?_⟩
  · intro hav
    have hav' := hav
    rw [havail] at hav'
    cases hp : env.pathExists with
    | false =>
      refine ⟨?_, ("Path not found: " ++ path), ?_, hne⟩ <;>
        simp [scan_repo, hp]
    | true =>
      cases hh : env.revParseHead with
      | none =>
        refine ⟨?_, "Not a git repository or git not available", ?_, by decide⟩ <;>
          simp [scan_repo, hp, hh]
      | some head =>
        rw [hp, hh] at hav'
        simp at hav'
  · intro hp
    simp [scan_repo, hp]
  · intro hp hh
    simp [scan_repo, hp, hh]

/-- Witness for C9: probing a missing path yields the degraded state. -/
theorem scan_repo_degraded_witness :
    (scan_repo "coach" "cloudeye-coach" { pathExists := false }).head_commit = none ∧
    ∃ e, (scan_repo "coach" "cloudeye-coach" { pathExists := false }).error =
      some e ∧ e ≠ "" :=
  (scan_repo_degraded "coach" "cloudeye-coach" { pathExists := false }).1 rfl

/-- Counterexample to C9 as stated: in an environment where the path exists
and the head query succeeds but the branch query fails (scanner.py line 118:
`_git` returns `None`), `scan_repo` does NOT return the degraded
unavailable-with-error state the claim requires for "any underlying git query
fails" — it stays available with no error and merely leaves `branch` unset. -/
theorem scan_repo_branch_failure_counterexample :
    ({ pathExists := true, revParseHead := some "abc1234" } : GitEnv).revParseBranch
        = none ∧
    (scan_repo "coach" "cloudeye-coach"
        { pathExists := true, revParseHead := some "abc1234" }).available = true ∧
    (scan_repo "coach" "cloudeye-coach"
        { pathExists := true, revParseHead := some "abc1234" }).error = none ∧
    (scan_repo "coach" "cloudeye-coach"
        { pathExists := true, revParseHead := some "abc1234" }).branch = none := by
  refine ⟨rfl, ?_, ?_, ?_⟩ <;> decide

/- ── Briefing cache `_get_briefing` (api.py lines 25-47) and C8 ───────────── -/

/-- The slice of `OrientationBriefing` the cache handles: its timestamp plus
the rest of the report, abstracted to a string.  `generated_at` is an integer
clock value (whole seconds), matching the `total_seconds()` comparison of the
source. -/
structure CachedBriefing where
  generated_at : Int
  report : String := ""
  deriving DecidableEq, Repr

/-- `CACHE_TTL_SECONDS = 60` (api.py line 28). -/
def CACHE_TTL_SECONDS : Int := 60

/-- `_get_briefing` (api.py lines 31-47) as a state transformer.  The module
globals `_cached_briefing`/`_cached_at` become the `Option (briefing, time)`
state; the pipeline `full_scan → detect_illusions → synthesize` becomes the
function argument `pipeline`, invoked at the request's clock value `now`
(each request reads the clock once; `synthesize` stamps the scan's start time
into `generated_at`, which this single-clock model identifies with `now`).
Returns the served briefing and the new cache state. -/
def getBriefing (pipeline : Int → CachedBriefing) (forceRefresh : Bool)
    (now : Int) (cache : Option (CachedBriefing × Int)) :
    CachedBriefing × Option (CachedBriefing × Int) :=
  match cache with
  | some (b, t) =>
    if !forceRefresh && now - t < CACHE_TTL_SECONDS then (b, some (b, t))
    else
      let nb := pipeline now
      (nb, some (nb, now))
  | none =>
    let nb := pipeline now
    (nb, some (nb, now))

/-- C8: cache behaviour of `_get_briefing`.  A non-forced request younger than
the TTL returns the cached briefing itself (its `generated_at` included) and
leaves the cache slot untouched; once the TTL has elapsed, the pipeline runs
again and both the returned briefing and the replaced cache slot carry the
strictly later timestamp. -/
theorem briefing_cache_behaviour (pipeline : Int → CachedBriefing)
    (hp : ∀ t, (pipeline t).generated_at = t)
    (b : CachedBriefing) (t now : Int) :
    (now - t < 60 →
       getBriefing pipeline false now (some (b, t)) = (b, some (b, t)) ∧
       (getBriefing pipeline false now (some (b, t))).1.generated_at =
         b.generated_at) ∧
    (b.generated_at = t → now - t ≥ 60 →
       (getBriefing pipeline false now (some (b, t))).1 = pipeline now ∧
       (getBriefing pipeline false now (some (b, t))).1.generated_at = now ∧
       b.generated_at <
         (getBriefing pipeline false now (some (b, t))).1.generated_at ∧
       (getBriefing pipeline false now (some (b, t))).2 =
         some (pipeline now, now)) := by
  constructor
  · intro hyoung
    have hcond : (!false && decide (now - t < CACHE_TTL_SECONDS)) = true := by
      simp only [Bool.not_false, Bool.true_and, decide_eq_true_eq,
        CACHE_TTL_SECONDS]
      omega
    have heq : getBriefing pipeline false now (some (b, t)) = (b, some (b, t)) := by
      simp only [getBriefing]
      rw [if_pos hcond]
    exact ⟨heq, by rw [heq]⟩
  · intro hstamp hold
    have hcond : (!false && decide (now - t < CACHE_TTL_SECONDS)) = false := by
      simp only [Bool.not_false, Bool.true_and, decide_eq_false_iff_not,
        CACHE_TTL_SECONDS]
      omega
    have heq : getBriefing pipeline false now (some (b, t)) =
        (pipeline now, some (pipeline now, now)) := by
      simp only [getBriefing]
      rw [if_neg (by rw [hcond]; exact Bool.false_ne_true)]
    refine ⟨by rw [heq], by rw [heq]; exact hp now, ?_, by rw [heq]⟩
    rw [heq, hstamp]
    show t < (pipeline now).generated_at
    rw [hp now]
    omega

/-- Witness for C8 at concrete clock values: a cache entry stamped at time 0,
probed at times 10 (hit) and 70 (expired). -/
theorem briefing_cache_behaviour_witness :
    (getBriefing (fun t => { generated_at := t }) false 10
        (some ({ generated_at := 0 }, 0)) =
      ({ generated_at := 0 }, some ({ generated_at := 0 }, 0))) ∧
    (getBriefing (fun t => { generated_at := t }) false 70
        (some ({ generated_at := 0 }, 0))).1.generated_at = 70 :=
  ⟨((briefing_cache_behaviour (fun t => { generated_at := t }) (fun _ => rfl)
      { generated_at := 0 } 0 10).1 (by omega)).1,
   ((briefing_cache_behaviour (fun t => { generated_at := t }) (fun _ => rfl)
      { generated_at := 0 } 0 70).2 rfl (by omega)).2.1⟩

end CloudEye

